import Mathlib

/-!
Shallow embedding of `src/glucose_data/data_gen.py` (repository MedMetrics).

The script seeds numpy's PRNG, builds four columns (`timestamp`,
`patient_id`, `glucose_level`, `meal_context`) of `n_records` rows,
assembles them into a DataFrame and writes it to `glucose_data.csv`
without the row index, then prints a success message.

Modelling decisions:
* Datetimes are absolute seconds since 1970-01-01 (proleptic Gregorian);
  calendar conversion uses the standard civil-date algorithms so that the
  rendered `YYYY-MM-DD HH:MM:SS` strings match pandas' CSV output for
  `datetime64` columns.
* Real numbers drawn from the normal distribution are idealised as
  rationals; `numpy.round(2)` is round-half-even to two decimal places.
* The PRNG stream is abstracted as functions from draw index to value
  (`Rng`); `np.random.choice` picks `options[k % len]`, which is how a
  uniform integer draw indexes a list.
* The CSV file is a list of lines, each a list of characters; pandas
  renders floats in shortest form (no trailing-zero padding) and does not
  quote fields that contain no separator, quote or newline.
* The observable behaviour of one run is a list of events: one file write
  followed by one line printed to standard output.
-/

namespace DataGen

/-- The abstract stream of pseudo-random draws: `ints i` is the `i`-th raw
integer draw (used by `np.random.choice`), `normals i` the `i`-th raw
normal sample (idealised as a rational). -/
structure Rng where
  ints : Nat → Nat
  normals : Nat → ℚ

/-- Modelled from the spec: `np.random.seed(42)` — "Seed the pseudo-random
generator deterministically so repeated runs with the same seed produce
identical output."  The Mersenne-Twister internals are numpy library code
absent from the repository; the model keeps the one property the spec
relies on, that the whole draw stream is a fixed function of the seed. -/
def seedRng (seed : Nat) : Rng :=
  { ints := fun i => seed + i
    normals := fun i => (seed : ℚ) + i }

/-- `['P001', 'P002', 'P003']` (line 13 of the source). -/
def patientLabels : List String := ["P001", "P002", "P003"]

/-- `['Fasting', 'Post-prandial', 'Before sleep']` (line 15 of the source). -/
def mealLabels : List String := ["Fasting", "Post-prandial", "Before sleep"]

/-- `np.random.choice(options, ...)` for one draw: a uniform integer draw
`k` indexes the option list, hence the result is `options[k % len]`. -/
def choiceD (options : List String) (k : Nat) : String :=
  options.getD (k % options.length) ""

/-- The number of hundredths of `x` rounded half-to-even: `100 * x`
rounded to the nearest integer with `numpy.round`'s tie rule. Written
with integer arithmetic on `x.num` and `x.den` (the value `100 * x` is
the fraction `(100 * x.num) / x.den`, `f` is its floor and `rem / x.den`
its fractional part) so the kernel can evaluate it. -/
def roundCents (x : ℚ) : ℤ :=
  let n := 100 * x.num
  let d : ℤ := (x.den : ℤ)
  let f := n / d
  let rem := n % d
  if 2 * rem < d then f
  else if d < 2 * rem then f + 1
  else if f % 2 = 0 then f else f + 1

/-- `numpy.round(x, 2)`: round to two decimal places,
`(roundCents x) / 100` as a rational. -/
def round2 (x : ℚ) : ℚ :=
  Rat.divInt (roundCents x) 100

/-- Days from 1970-01-01 of the civil date `y-m-d` (proleptic Gregorian),
the standard `days_from_civil` algorithm with floor division. -/
def daysFromCivil (y m d : ℤ) : ℤ :=
  let y' := if m ≤ 2 then y - 1 else y
  let era := Int.ediv y' 400
  let yoe := y' - era * 400
  let doy := Int.ediv (153 * (if 2 < m then m - 3 else m + 9) + 2) 5 + d - 1
  let doe := yoe * 365 + Int.ediv yoe 4 - Int.ediv yoe 100 + doy
  era * 146097 + doe - 719468

/-- Civil date `(y, m, d)` of a day count from 1970-01-01, the standard
`civil_from_days` algorithm with floor division. -/
def civilFromDays (z : ℤ) : ℤ × ℤ × ℤ :=
  let z' := z + 719468
  let era := Int.ediv z' 146097
  let doe := z' - era * 146097
  let yoe := Int.ediv (doe - Int.ediv doe 1460 + Int.ediv doe 36524
      - Int.ediv doe 146096) 365
  let y := yoe + era * 400
  let doy := doe - (365 * yoe + Int.ediv yoe 4 - Int.ediv yoe 100)
  let mp := Int.ediv (5 * doy + 2) 153
  let d := doy - Int.ediv (153 * mp + 2) 5 + 1
  let m := if mp < 10 then mp + 3 else mp - 9
  (if m ≤ 2 then y + 1 else y, m, d)

/-- `datetime(2026, 1, 1)` as seconds since 1970-01-01. -/
def startSeconds : Nat := (86400 * daysFromCivil 2026 1 1).toNat

/-- Seconds since 1970-01-01 of the instant `y-m-d h:mi:s`. -/
def secondsOfDateTime (y m d h mi s : ℤ) : ℤ :=
  86400 * daysFromCivil y m d + 3600 * h + 60 * mi + s

/-- The character of a decimal digit `d < 10`. -/
def digitChar (d : Nat) : Char := Char.ofNat (48 + d)

/-- Decimal digit characters, most significant first; `fuel` bounds the
recursion depth (structural, so the kernel can evaluate it). -/
def natToCharsAux : Nat → Nat → List Char
  | 0, _ => []
  | fuel + 1, n =>
    if n < 10 then [digitChar n]
    else natToCharsAux fuel (n / 10) ++ [digitChar (n % 10)]

/-- The decimal digit characters of `n`, most significant first. -/
def natToChars (n : Nat) : List Char := natToCharsAux (n + 1) n

/-- `n` rendered to at least two digits (leading zero pad). -/
def pad2 (n : Nat) : List Char :=
  if n < 10 then '0' :: natToChars n else natToChars n

/-- `n` rendered to at least four digits (leading zero pad). -/
def pad4 (n : Nat) : List Char :=
  List.replicate (4 - (natToChars n).length) '0' ++ natToChars n

/-- pandas' CSV rendering of a `datetime64` value (seconds precision):
`YYYY-MM-DD HH:MM:SS`. -/
def renderTimestamp (s : Nat) : List Char :=
  let c := civilFromDays ((s : ℤ).ediv 86400)
  let sod := s % 86400
  pad4 c.1.toNat ++ ['-'] ++ pad2 c.2.1.toNat ++ ['-'] ++ pad2 c.2.2.toNat
    ++ [' '] ++ pad2 (sod / 3600) ++ [':'] ++ pad2 (sod % 3600 / 60)
    ++ [':'] ++ pad2 (sod % 60)

/-- The fraction digits of a number of hundredths `fr` (`0 ≤ fr < 100`) in
shortest form: trailing zeros dropped, but an integral value keeps one
`0` digit (pandas renders floats through Python's shortest `repr`). -/
def fracChars (fr : Nat) : List Char :=
  if fr = 0 then ['0']
  else if fr % 10 = 0 then natToChars (fr / 10)
  else if fr < 10 then '0' :: natToChars fr
  else natToChars fr

/-- pandas' CSV rendering of an integer number of hundredths `k/100`
(shortest decimal form). Every `glucose_level` value is such a multiple
of `1/100`. -/
def renderCents (k : ℤ) : List Char :=
  (if k < 0 then ['-'] else []) ++ natToChars (k.natAbs / 100) ++ ['.']
    ++ fracChars (k.natAbs % 100)

/-- pandas' CSV rendering of a `glucose_level` value `q`. Every such
value is an integer multiple of `1/100` (its reduced denominator divides
`100`), so its number of hundredths is `q.num * (100 / q.den)`, written
with exact integer arithmetic so the kernel can evaluate it. -/
def renderFloat2 (q : ℚ) : List Char :=
  renderCents (q.num * (100 / (q.den : ℤ)))

/-- One row of the DataFrame (lines 11-18 of the source). -/
structure Reading where
  timestamp : Nat
  patient_id : String
  glucose_level : ℚ
  meal_context : String
deriving DecidableEq

instance : Inhabited Reading := ⟨⟨0, "", 0, ""⟩⟩

/-- The generated dataset: row `i` pairs the `i`-th element of each of the
four columns of the `data` dict (lines 11-16): timestamp
`start_date + timedelta(minutes=30*i)`, a patient label drawn by
`np.random.choice`, a normal sample rounded to two decimals, and a meal
label drawn by `np.random.choice`.  The two `choice` calls consume
disjoint parts of the integer draw stream. -/
def generate (n : Nat) (rng : Rng) : List Reading :=
  (List.range n).map fun i =>
    { timestamp := startSeconds + 60 * (30 * i)
      patient_id := choiceD patientLabels (rng.ints i)
      glucose_level := round2 (rng.normals i)
      meal_context := choiceD mealLabels (rng.ints (n + i)) }

/-- The reading at index `i`, as a total function (`default` off range). -/
def readingAt (n : Nat) (rng : Rng) (i : Nat) : Reading :=
  (generate n rng).getD i default

/-- The column names of the `data` dict, in insertion order. -/
def columns : List String := ["timestamp", "patient_id", "glucose_level", "meal_context"]

/-- The header line written by `to_csv`: the column names joined by commas. -/
def header : List Char := (String.intercalate "," columns).data

/-- One data line: the four rendered fields joined by commas
(`to_csv` with `index=False`, so no row-index field). -/
def renderRow (r : Reading) : List Char :=
  List.intercalate [','] [renderTimestamp r.timestamp, r.patient_id.data,
    renderFloat2 r.glucose_level, r.meal_context.data]

/-- The lines of `glucose_data.csv`: the header followed by one line per
reading, in generation order (line 21 of the source). -/
def csvLines (n : Nat) (rng : Rng) : List (List Char) :=
  header :: (generate n rng).map renderRow

/-- The output file name (line 21 of the source). -/
def outName : String := "glucose_data.csv"

/-- The success message printed on line 22 of the source. -/
def successMsg : String := "¡Archivo glucose_data.csv generado con éxito!"

/-- An externally observable action of the program. -/
inductive Event where
  | writeFile (name : String) (lines : List (List Char))
  | printLine (s : String)
deriving DecidableEq

/-- Whether an event is a print to standard output. -/
def Event.isPrint : Event → Bool
  | .printLine _ => true
  | _ => false

/-- Whether an event is a file write. -/
def Event.isWrite : Event → Bool
  | .writeFile _ _ => true
  | _ => false

instance : Inhabited Event := ⟨.printLine ""⟩

/-- One run of the script: seed the PRNG (line 6), generate the dataset,
write the CSV (line 21), then print the success message (line 22). -/
def run (seed n : Nat) : List Event :=
  [Event.writeFile outName (csvLines n (seedRng seed)),
   Event.printLine successMsg]

/-- Split a character list at commas (field decomposition of a CSV line
that contains no quoting). -/
def splitOnComma : List Char → List (List Char)
  | [] => [[]]
  | c :: cs =>
    if c = ',' then [] :: splitOnComma cs
    else
      match splitOnComma cs with
      | [] => [[c]]
      | f :: rest => (c :: f) :: rest

/-- Number of fraction digits of a rendered decimal number: the length of
the maximal run of characters after the last `.`. -/
def fractionDigits (cs : List Char) : Nat :=
  (cs.reverse.takeWhile (fun c => c ≠ '.')).length

/-- A concrete draw stream for instantiating theorems: every integer draw
is `0`, every normal sample is `0`. -/
def rng0 : Rng := ⟨fun _ => 0, fun _ => 0⟩

/-- A concrete draw stream whose normal samples are all `110.5 = 221/2`,
already exact in hundredths, with a zero in the hundredths place. -/
def rngHalf : Rng := ⟨fun _ => 0, fun _ => Rat.divInt 221 2⟩

/-- The single reading produced by `generate 1 rng0`. -/
def sampleReading : Reading := ⟨startSeconds, "P001", 0, "Fasting"⟩

/-! ### Helper lemmas -/

theorem digitChar_isDigit {d : Nat} (h : d < 10) :
    (digitChar d).isDigit = true := by
  interval_cases d <;> decide

theorem natToCharsAux_isDigit {fuel n : Nat} {c : Char}
    (h : c ∈ natToCharsAux fuel n) : c.isDigit = true := by
  induction fuel generalizing n with
  | zero => simp [natToCharsAux] at h
  | succ f ih =>
    rw [natToCharsAux] at h
    split at h
    · rename_i hn
      simp only [List.mem_singleton] at h
      subst h
      exact digitChar_isDigit hn
    · rcases List.mem_append.mp h with h' | h'
      · exact ih h'
      · simp only [List.mem_singleton] at h'
        subst h'
        exact digitChar_isDigit (Nat.mod_lt _ (by omega))

theorem natToChars_isDigit {n : Nat} {c : Char} (h : c ∈ natToChars n) :
    c.isDigit = true :=
  natToCharsAux_isDigit h

theorem natToCharsAux_len_one {fuel n : Nat} (h : n < 10) :
    (natToCharsAux (fuel + 1) n).length = 1 := by
  rw [natToCharsAux]; simp [h]

theorem natToChars_len_one {n : Nat} (h : n < 10) :
    (natToChars n).length = 1 :=
  natToCharsAux_len_one h

theorem natToChars_len_two {n : Nat} (h1 : 10 ≤ n) (h2 : n < 100) :
    (natToChars n).length = 2 := by
  obtain ⟨f, rfl⟩ : ∃ f, n = f + 1 := ⟨n - 1, by omega⟩
  unfold natToChars
  rw [natToCharsAux]
  have hn : ¬ f + 1 < 10 := by omega
  simp only [hn, if_false, List.length_append, List.length_singleton]
  rw [natToCharsAux_len_one (by omega)]

theorem pad2_isDigit {n : Nat} {c : Char} (h : c ∈ pad2 n) :
    c.isDigit = true := by
  unfold pad2 at h
  split at h
  · rcases List.mem_cons.mp h with h' | h'
    · subst h'; decide
    · exact natToChars_isDigit h'
  · exact natToChars_isDigit h

theorem pad4_isDigit {n : Nat} {c : Char} (h : c ∈ pad4 n) :
    c.isDigit = true := by
  unfold pad4 at h
  rcases List.mem_append.mp h with h' | h'
  · have := List.eq_of_mem_replicate h'
    subst this; decide
  · exact natToChars_isDigit h'

theorem fracChars_isDigit {fr : Nat} {c : Char} (h : c ∈ fracChars fr) :
    c.isDigit = true := by
  unfold fracChars at h
  split at h
  · simp only [List.mem_singleton] at h; subst h; decide
  · split at h
    · exact natToChars_isDigit h
    · split at h
      · rcases List.mem_cons.mp h with h' | h'
        · subst h'; decide
        · exact natToChars_isDigit h'
      · exact natToChars_isDigit h

theorem fracChars_length {fr : Nat} (h : fr < 100) :
    1 ≤ (fracChars fr).length ∧ (fracChars fr).length ≤ 2 := by
  unfold fracChars
  split
  · simp
  · split
    · rename_i h0 _
      rw [natToChars_len_one (by omega)]
      omega
    · split
      · rename_i h0 _ hlt
        simp only [List.length_cons]
        rw [natToChars_len_one (by omega)]
        omega
      · rename_i h0 hm hge
        rw [natToChars_len_two (by omega) h]
        omega

/-- A digit character is not a separator, quote, newline, dot, sign or
space. -/
theorem isDigit_ne_special {c : Char} (h : c.isDigit = true) :
    c ≠ ',' ∧ c ≠ '"' ∧ c ≠ '\n' ∧ c ≠ '.' ∧ c ≠ '-' ∧ c ≠ ' ' ∧ c ≠ ':' := by
  refine ⟨?_, ?_, ?_, ?_, ?_, ?_, ?_⟩ <;> (rintro rfl; revert h; decide)

theorem renderTimestamp_chars {s : Nat} {c : Char}
    (h : c ∈ renderTimestamp s) :
    c.isDigit = true ∨ c = '-' ∨ c = ' ' ∨ c = ':' := by
  unfold renderTimestamp at h
  simp only [List.mem_append, List.mem_singleton] at h
  rcases h with ((((((((((h | h) | h) | h) | h) | h) | h) | h) | h) | h) | h)
  · exact Or.inl (pad4_isDigit h)
  · exact Or.inr (Or.inl h)
  · exact Or.inl (pad2_isDigit h)
  · exact Or.inr (Or.inl h)
  · exact Or.inl (pad2_isDigit h)
  · exact Or.inr (Or.inr (Or.inl h))
  · exact Or.inl (pad2_isDigit h)
  · exact Or.inr (Or.inr (Or.inr h))
  · exact Or.inl (pad2_isDigit h)
  · exact Or.inr (Or.inr (Or.inr h))
  · exact Or.inl (pad2_isDigit h)

theorem renderCents_chars {k : ℤ} {c : Char} (h : c ∈ renderCents k) :
    c.isDigit = true ∨ c = '-' ∨ c = '.' := by
  unfold renderCents at h
  simp only [List.mem_append, List.mem_singleton] at h
  rcases h with ((h | h) | h) | h
  · split at h
    · simp only [List.mem_singleton] at h
      exact Or.inr (Or.inl h)
    · simp at h
  · exact Or.inl (natToChars_isDigit h)
  · exact Or.inr (Or.inr h)
  · exact Or.inl (fracChars_isDigit h)

theorem takeWhile_append_all {p : Char → Bool} {xs ys : List Char}
    (h : ∀ x ∈ xs, p x = true) :
    (xs ++ ys).takeWhile p = xs ++ ys.takeWhile p := by
  induction xs with
  | nil => simp
  | cons a l ih =>
    simp only [List.cons_append, List.takeWhile_cons]
    rw [h a (List.mem_cons_self a l),
      ih (fun x hx => h x (List.mem_cons_of_mem a hx))]
    simp

theorem fractionDigits_renderCents (k : ℤ) :
    1 ≤ fractionDigits (renderCents k) ∧ fractionDigits (renderCents k) ≤ 2 := by
  have hfr : k.natAbs % 100 < 100 := Nat.mod_lt _ (by omega)
  have hlen := fracChars_length hfr
  have hall : ∀ x ∈ (fracChars (k.natAbs % 100)).reverse,
      (fun c => decide (c ≠ '.')) x = true := by
    intro x hx
    have hd := fracChars_isDigit (List.mem_reverse.mp hx)
    simpa using (isDigit_ne_special hd).2.2.2.1
  have hstep : fractionDigits (renderCents k)
      = (fracChars (k.natAbs % 100)).length := by
    unfold fractionDigits renderCents
    rw [List.reverse_append, List.reverse_append, List.reverse_singleton,
      List.singleton_append, takeWhile_append_all hall, List.takeWhile_cons]
    simp
  omega

theorem splitOnComma_ne_nil (cs : List Char) : splitOnComma cs ≠ [] := by
  induction cs with
  | nil => simp [splitOnComma]
  | cons c l ih =>
    rw [splitOnComma]
    split
    · simp
    · rcases h : splitOnComma l with _ | ⟨f, rest⟩
      · exact absurd h ih
      · simp [h]

theorem splitOnComma_no_comma {cs : List Char} (h : ∀ c ∈ cs, c ≠ ',') :
    splitOnComma cs = [cs] := by
  induction cs with
  | nil => rfl
  | cons c l ih =>
    have hc : c ≠ ',' := h c (List.mem_cons_self c l)
    rw [splitOnComma, if_neg hc, ih (fun x hx => h x (List.mem_cons_of_mem c hx))]

theorem splitOnComma_append {xs ys : List Char} (h : ∀ c ∈ xs, c ≠ ',') :
    splitOnComma (xs ++ ',' :: ys) = xs :: splitOnComma ys := by
  induction xs with
  | nil => rw [List.nil_append, splitOnComma, if_pos rfl]
  | cons c l ih =>
    have hc : c ≠ ',' := h c (List.mem_cons_self c l)
    rw [List.cons_append, splitOnComma, if_neg hc,
      ih (fun x hx => h x (List.mem_cons_of_mem c hx))]

theorem choiceD_mem {options : List String} (h : options ≠ []) (k : Nat) :
    choiceD options k ∈ options := by
  unfold choiceD
  have hlen : 0 < options.length := List.length_pos.mpr h
  rw [List.getD_eq_getElem _ _ (Nat.mod_lt _ hlen)]
  exact List.getElem_mem _

theorem generate_length (n : Nat) (rng : Rng) : (generate n rng).length = n := by
  simp [generate]

theorem mem_generate {n : Nat} {rng : Rng} {r : Reading}
    (h : r ∈ generate n rng) :
    ∃ i, i < n ∧ r =
      { timestamp := startSeconds + 60 * (30 * i)
        patient_id := choiceD patientLabels (rng.ints i)
        glucose_level := round2 (rng.normals i)
        meal_context := choiceD mealLabels (rng.ints (n + i)) } := by
  simp only [generate, List.mem_map, List.mem_range] at h
  obtain ⟨i, hi, hr⟩ := h
  exact ⟨i, hi, hr.symm⟩

theorem readingAt_eq {n i : Nat} (rng : Rng) (h : i < n) :
    readingAt n rng i =
      { timestamp := startSeconds + 60 * (30 * i)
        patient_id := choiceD patientLabels (rng.ints i)
        glucose_level := round2 (rng.normals i)
        meal_context := choiceD mealLabels (rng.ints (n + i)) } := by
  unfold readingAt generate
  rw [List.getD_eq_getElem _ _ (by simpa using h)]
  simp

theorem readingAt_mem {n i : Nat} (rng : Rng) (h : i < n) :
    readingAt n rng i ∈ generate n rng := by
  unfold readingAt
  rw [List.getD_eq_getElem _ _ (by simpa [generate_length] using h)]
  exact List.getElem_mem _

theorem hundred_mul_div (k : ℤ) : (100 : ℚ) * ((k : ℚ) / 100) = (k : ℚ) := by
  field_simp

/-- `roundCents` on an exact multiple of `1/100` recovers its numerator of
hundredths: rounding moves nothing when the value is already rounded. -/
theorem roundCents_intDiv100 (k : ℤ) : roundCents ((k : ℚ) / 100) = k := by
  set q : ℚ := (k : ℚ) / 100 with hq
  have hdpos : (0 : ℤ) < (q.den : ℤ) := by exact_mod_cast q.pos
  have hcross : q.num * 100 = k * (q.den : ℤ) := by
    have h1 : (q.num : ℚ) / (q.den : ℚ) = (k : ℚ) / 100 := by
      rw [Rat.num_div_den]
    have h2 : (q.num : ℚ) * 100 = (k : ℚ) * (q.den : ℚ) :=
      (div_eq_div_iff (by exact_mod_cast q.den_nz) (by norm_num)).mp h1
    exact_mod_cast h2
  have h100 : (100 : ℤ) * q.num = k * (q.den : ℤ) := by linarith
  simp only [roundCents, h100, Int.mul_emod_left,
    Int.mul_ediv_cancel _ (show (q.den : ℤ) ≠ 0 by omega)]
  simp [hdpos]

theorem round2_eq_div (x : ℚ) : round2 x = (roundCents x : ℚ) / 100 := by
  unfold round2
  rw [Rat.divInt_eq_div]
  norm_num

theorem round2_idem (x : ℚ) : round2 (round2 x) = round2 x := by
  have h : roundCents (round2 x) = roundCents x := by
    rw [round2_eq_div]
    exact roundCents_intDiv100 _
  calc round2 (round2 x) = Rat.divInt (roundCents (round2 x)) 100 := rfl
    _ = Rat.divInt (roundCents x) 100 := by rw [h]
    _ = round2 x := rfl

theorem round2_den (x : ℚ) : (100 * round2 x).den = 1 := by
  rw [round2_eq_div, hundred_mul_div]
  exact Rat.den_intCast _

theorem renderTimestamp_clean {s : Nat} :
    ∀ c ∈ renderTimestamp s, c ≠ ',' ∧ c ≠ '"' ∧ c ≠ '\n' := by
  intro c hc
  rcases renderTimestamp_chars hc with h | h | h | h
  · have hs := isDigit_ne_special h
    exact ⟨hs.1, hs.2.1, hs.2.2.1⟩
  · subst h; exact ⟨by decide, by decide, by decide⟩
  · subst h; exact ⟨by decide, by decide, by decide⟩
  · subst h; exact ⟨by decide, by decide, by decide⟩

theorem renderFloat2_clean {q : ℚ} :
    ∀ c ∈ renderFloat2 q, c ≠ ',' ∧ c ≠ '"' ∧ c ≠ '\n' := by
  intro c hc
  have hc' : c ∈ renderCents (q.num * (100 / (q.den : ℤ))) := hc
  rcases renderCents_chars hc' with h | h | h
  · have hs := isDigit_ne_special h
    exact ⟨hs.1, hs.2.1, hs.2.2.1⟩
  · subst h; exact ⟨by decide, by decide, by decide⟩
  · subst h; exact ⟨by decide, by decide, by decide⟩

theorem labelString_clean {s : String}
    (h : s ∈ patientLabels ∨ s ∈ mealLabels) :
    ∀ c ∈ s.data, c ≠ ',' ∧ c ≠ '"' ∧ c ≠ '\n' := by
  rcases h with h | h <;> simp only [patientLabels, mealLabels] at h <;>
    rcases List.mem_cons.mp h with rfl | h <;>
      first
        | decide
        | (rcases List.mem_cons.mp h with rfl | h <;>
            first
              | decide
              | (rcases List.mem_cons.mp h with rfl | h <;>
                  first | decide | simp at h))

theorem renderRow_eq (r : Reading) :
    renderRow r = renderTimestamp r.timestamp ++ ',' ::
      (r.patient_id.data ++ ',' ::
        (renderFloat2 r.glucose_level ++ ',' :: r.meal_context.data)) := by
  simp [renderRow, List.intercalate]

theorem splitOnComma_renderRow {r : Reading}
    (h1 : ∀ c ∈ r.patient_id.data, c ≠ ',')
    (h2 : ∀ c ∈ r.meal_context.data, c ≠ ',') :
    splitOnComma (renderRow r) =
      [renderTimestamp r.timestamp, r.patient_id.data,
        renderFloat2 r.glucose_level, r.meal_context.data] := by
  rw [renderRow_eq,
    splitOnComma_append (fun c hc => (renderTimestamp_clean c hc).1),
    splitOnComma_append h1,
    splitOnComma_append (fun c hc => (renderFloat2_clean c hc).1),
    splitOnComma_no_comma h2]

theorem csvLines_getD {n i : Nat} (rng : Rng) (h : i < n) :
    (csvLines n rng).getD (i + 1) [] = renderRow (readingAt n rng i) := by
  have hlen : i < (generate n rng).length := by
    rw [generate_length]; exact h
  unfold csvLines readingAt
  rw [List.getD_cons_succ,
    List.getD_eq_getElem _ _ (by simpa using hlen),
    List.getElem_map, List.getD_eq_getElem _ _ hlen]

theorem readingAt_fields_clean {n i : Nat} (rng : Rng) (h : i < n) :
    (∀ c ∈ (readingAt n rng i).patient_id.data, c ≠ ',' ∧ c ≠ '"' ∧ c ≠ '\n')
    ∧ (∀ c ∈ (readingAt n rng i).meal_context.data,
        c ≠ ',' ∧ c ≠ '"' ∧ c ≠ '\n') := by
  rw [readingAt_eq rng h]
  exact ⟨labelString_clean (Or.inl (choiceD_mem (by decide) _)),
    labelString_clean (Or.inr (choiceD_mem (by decide) _))⟩

/-! ### The claims -/

/-- Claim C1: for a fixed seed and fixed record count, the observable
behaviour of a run — the file written and the line printed — is a
function of the seed and `n_records` alone, so any two runs produce
identical event lists and in particular byte-identical output files. -/
theorem run_deterministic (seed n : Nat) (o₁ o₂ : List Event)
    (h₁ : o₁ = run seed n) (h₂ : o₂ = run seed n) : o₁ = o₂ :=
  h₁.trans h₂.symm

/-- Witness for C1 at seed 42 and the default 1000 records. -/
theorem run_deterministic_witness : run 42 1000 = run 42 1000 :=
  run_deterministic 42 1000 (run 42 1000) (run 42 1000) rfl rfl

/-- Claim C2: row `i` is timestamped `start_date + 30·i` minutes; the
timestamp column is strictly increasing; `start_date` is
2026-01-01T00:00:00, and with `n_records = 1000` row 0 is stamped
2026-01-01T00:00:00 and row 1 is stamped 2026-01-01T00:30:00. -/
theorem timestamp_arithmetic (n : Nat) (rng : Rng) :
    (∀ i, i < n →
      (readingAt n rng i).timestamp = startSeconds + 60 * (30 * i))
    ∧ ((generate n rng).map (fun r => r.timestamp)).Pairwise (· < ·)
    ∧ startSeconds = (secondsOfDateTime 2026 1 1 0 0 0).toNat
    ∧ (readingAt 1000 rng 0).timestamp
        = (secondsOfDateTime 2026 1 1 0 0 0).toNat
    ∧ (readingAt 1000 rng 1).timestamp
        = (secondsOfDateTime 2026 1 1 0 30 0).toNat := by
  refine ⟨fun i hi => by rw [readingAt_eq rng hi], ?_, by decide, ?_, ?_⟩
  · unfold generate
    rw [List.map_map]
    refine List.Pairwise.map _ ?_ (List.pairwise_lt_range n)
    intro a b hab
    simp only [Function.comp_apply]
    omega
  · rw [readingAt_eq rng (show 0 < 1000 by omega)]
    show startSeconds + 60 * (30 * 0) = (secondsOfDateTime 2026 1 1 0 0 0).toNat
    decide
  · rw [readingAt_eq rng (show 1 < 1000 by omega)]
    show startSeconds + 60 * (30 * 1) = (secondsOfDateTime 2026 1 1 0 30 0).toNat
    decide

/-- Witness for C2: the second of two rows, instantiated concretely. -/
theorem timestamp_arithmetic_witness :
    (readingAt 2 rng0 1).timestamp = startSeconds + 60 * (30 * 1) :=
  (timestamp_arithmetic 2 rng0).1 1 (by decide)

/-- Claim C3: every generated reading draws its patient label from
{P001, P002, P003} and its meal context from
{Fasting, Post-prandial, Before sleep}. -/
theorem labels_closed (n : Nat) (rng : Rng) (r : Reading)
    (h : r ∈ generate n rng) :
    r.patient_id ∈ patientLabels ∧ r.meal_context ∈ mealLabels := by
  obtain ⟨i, hi, rfl⟩ := mem_generate h
  exact ⟨choiceD_mem (by decide) _, choiceD_mem (by decide) _⟩

/-- Witness for C3 on the one reading of a one-row run. -/
theorem labels_closed_witness :
    sampleReading.patient_id ∈ patientLabels
    ∧ sampleReading.meal_context ∈ mealLabels :=
  labels_closed 1 rng0 sampleReading (by decide)

/-- Claim C4: the output file has exactly `n_records + 1` lines — a
header plus one line per reading — and 1001 lines at the default 1000. -/
theorem csv_line_count (n : Nat) (rng : Rng) :
    (csvLines n rng).length = n + 1 ∧ (csvLines 1000 rng).length = 1001 := by
  constructor <;> simp [csvLines, generate]

/-- Claim C5: the first line of the file is exactly
`timestamp,patient_id,glucose_level,meal_context`, and data line `i + 1`
is reading `i` rendered as its four fields in that order, joined by
commas, with no row-index field. -/
theorem csv_header_and_rows (n : Nat) (rng : Rng) :
    String.mk ((csvLines n rng).getD 0 []) =
      "timestamp,patient_id,glucose_level,meal_context"
    ∧ ∀ i, i < n → (csvLines n rng).getD (i + 1) [] =
        renderTimestamp (readingAt n rng i).timestamp ++ ',' ::
          ((readingAt n rng i).patient_id.data ++ ',' ::
            (renderFloat2 (readingAt n rng i).glucose_level ++ ',' ::
              (readingAt n rng i).meal_context.data)) := by
  refine ⟨rfl, fun i hi => ?_⟩
  rw [csvLines_getD rng hi, renderRow_eq]

/-- Witness for C5: the data line of a one-row run. -/
theorem csv_header_and_rows_witness :
    (csvLines 1 rng0).getD 1 [] =
      renderTimestamp (readingAt 1 rng0 0).timestamp ++ ',' ::
        ((readingAt 1 rng0 0).patient_id.data ++ ',' ::
          (renderFloat2 (readingAt 1 rng0 0).glucose_level ++ ',' ::
            (readingAt 1 rng0 0).meal_context.data)) :=
  (csv_header_and_rows 1 rng0).2 0 (by decide)

/-- Counterexample to C6 as stated: when the sample is 110.5, the data
line is `2026-01-01 00:00:00,P001,110.5,Fasting` and its glucose field
has one fraction digit, not exactly two — trailing zeros are not
padded. -/
theorem glucose_two_digits_counterexample :
    String.mk ((csvLines 1 rngHalf).getD 1 []) =
      "2026-01-01 00:00:00,P001,110.5,Fasting"
    ∧ fractionDigits
        ((splitOnComma ((csvLines 1 rngHalf).getD 1 [])).getD 2 []) ≠ 2 := by
  constructor <;> decide

/-- Claim C6 as amended: in every data line, the glucose field is a
decimal number with at least one and at most two fraction digits. -/
theorem glucose_fraction_digits_bounds (n i : Nat) (rng : Rng) (h : i < n) :
    1 ≤ fractionDigits
        ((splitOnComma ((csvLines n rng).getD (i + 1) [])).getD 2 [])
    ∧ fractionDigits
        ((splitOnComma ((csvLines n rng).getD (i + 1) [])).getD 2 []) ≤ 2 := by
  have hclean := readingAt_fields_clean rng h
  rw [csvLines_getD rng h,
    splitOnComma_renderRow (fun c hc => (hclean.1 c hc).1)
      (fun c hc => (hclean.2 c hc).1)]
  exact fractionDigits_renderCents _

/-- Witness for C6 as amended, on a one-row run. -/
theorem glucose_fraction_digits_bounds_witness :
    1 ≤ fractionDigits
        ((splitOnComma ((csvLines 1 rngHalf).getD 1 [])).getD 2 [])
    ∧ fractionDigits
        ((splitOnComma ((csvLines 1 rngHalf).getD 1 [])).getD 2 []) ≤ 2 :=
  glucose_fraction_digits_bounds 1 0 rngHalf (by decide)

/-- Claim C7: every glucose value is already rounded to two decimals —
it equals its own rounding, and one hundred times it is an integer. -/
theorem glucose_round2_fixed (n : Nat) (rng : Rng) (r : Reading)
    (h : r ∈ generate n rng) :
    round2 r.glucose_level = r.glucose_level
    ∧ (100 * r.glucose_level).den = 1 := by
  obtain ⟨i, hi, rfl⟩ := mem_generate h
  exact ⟨round2_idem _, round2_den _⟩

/-- Witness for C7 on the one reading of a one-row run. -/
theorem glucose_round2_fixed_witness :
    round2 sampleReading.glucose_level = sampleReading.glucose_level
    ∧ (100 * sampleReading.glucose_level).den = 1 :=
  glucose_round2_fixed 1 rng0 sampleReading (by decide)

/-- Claim C8: exactly one line is printed on success; its text names
`glucose_data.csv`; and every print event comes strictly after every
file-write event. -/
theorem stdout_single_success (seed n : Nat) :
    (run seed n).filter Event.isPrint = [Event.printLine successMsg]
    ∧ successMsg.data =
        "¡Archivo ".data ++ outName.data ++ " generado con éxito!".data
    ∧ ∀ i j, i < (run seed n).length → j < (run seed n).length →
        ((run seed n).getD i default).isWrite = true →
        ((run seed n).getD j default).isPrint = true → i < j := by
  refine ⟨rfl, by decide, fun i j hi hj hw hp => ?_⟩
  have hlen : (run seed n).length = 2 := rfl
  rw [hlen] at hi hj
  interval_cases i <;> interval_cases j <;>
    simp_all [run, Event.isWrite, Event.isPrint]

/-- Witness for C8: in a concrete run the write is at index 0 and the
print at index 1, and indeed 0 < 1. -/
theorem stdout_single_success_witness :
    ((run 42 1).getD 0 default).isWrite = true ∧ (0 : Nat) < 1 :=
  ⟨by decide,
    (stdout_single_success 42 1).2.2 0 1 (by decide) (by decide)
      (by decide) (by decide)⟩

/-- Claim C9: with `n_records = 0` the file is the header line alone. -/
theorem empty_dataset_header_only (rng : Rng) :
    csvLines 0 rng = [header] ∧ (csvLines 0 rng).length = 1 := by
  constructor <;> simp [csvLines, generate]

/-- Claim C10: every data line splits at its three commas into exactly
four fields, and no field contains a comma, a quote or a line break, so
no CSV quoting or escaping ever occurs. -/
theorem csv_no_quoting (n i : Nat) (rng : Rng) (h : i < n) :
    (splitOnComma ((csvLines n rng).getD (i + 1) [])).length = 4
    ∧ ((csvLines n rng).getD (i + 1) []).count ',' = 3
    ∧ ∀ f ∈ splitOnComma ((csvLines n rng).getD (i + 1) []),
        ∀ c ∈ f, c ≠ ',' ∧ c ≠ '"' ∧ c ≠ '\n' := by
  have hclean := readingAt_fields_clean rng h
  have hsplit := splitOnComma_renderRow
    (fun c hc => (hclean.1 c hc).1) (fun c hc => (hclean.2 c hc).1)
  rw [csvLines_getD rng h]
  refine ⟨by rw [hsplit]; rfl, ?_, ?_⟩
  · rw [renderRow_eq]
    have h1 : (renderTimestamp (readingAt n rng i).timestamp).count ',' = 0 :=
      List.count_eq_zero.mpr (fun hm => (renderTimestamp_clean _ hm).1 rfl)
    have h2 : ((readingAt n rng i).patient_id.data).count ',' = 0 :=
      List.count_eq_zero.mpr (fun hm => ((hclean.1 _ hm).1) rfl)
    have h3 : (renderFloat2 (readingAt n rng i).glucose_level).count ',' = 0 :=
      List.count_eq_zero.mpr (fun hm => (renderFloat2_clean _ hm).1 rfl)
    have h4 : ((readingAt n rng i).meal_context.data).count ',' = 0 :=
      List.count_eq_zero.mpr (fun hm => ((hclean.2 _ hm).1) rfl)
    simp [List.count_append, List.count_cons, h1, h2, h3, h4]
  · rw [hsplit]
    simp only [List.forall_mem_cons]
    exact ⟨renderTimestamp_clean, hclean.1, renderFloat2_clean, hclean.2,
      fun f hf => absurd hf (List.not_mem_nil f)⟩

/-- Witness for C10: the four fields of the data line of a one-row run. -/
theorem csv_no_quoting_witness :
    (splitOnComma ((csvLines 1 rng0).getD 1 [])).length = 4 :=
  (csv_no_quoting 1 0 rng0 (by decide)).1

end DataGen
